import Mathlib

/-
  Verification of the color-transform stylesheet rewriter
  (scripts/transform_colors.py).

  The development shallowly embeds the script: the regex-driven line
  rewriter, the expression model (colors / passthrough strings / adjustment
  function calls), the tone curve t, and the serialization code.  Python
  floats are idealized as real numbers (for the tone curve and color math)
  and as rationals (for values that flow into string serialization).  The
  scipy nelder-mead minimizer is treated as an external search procedure:
  functions that call it take the minimizer as an explicit argument, so all
  statements hold for every possible optimizer outcome.  Python exceptions
  are modelled with Except.
-/

namespace TransformColors

/-! ### Python-level numeric helpers -/

/-- Errors a run of the script can raise (uncaught Python exceptions). -/
inductive PyErr where
  | keyError (k : String)
  | valueError (msg : String)
  | typeError
  | attrError
  | fuelExhausted
  deriving Repr, DecidableEq

/-- Floor of a rational as an integer (computable floor division). -/
def ratFloor (q : ℚ) : ℤ := q.num.fdiv q.den

/-- Python round-half-to-even on a rational, as used by round(float(v)). -/
def pyRound (q : ℚ) : ℤ :=
  let f : ℤ := ratFloor q
  let r : ℚ := q - f
  if r < 1/2 then f
  else if 1/2 < r then f + 1
  else if f % 2 = 0 then f else f + 1

/-- Character class of Python ASCII whitespace (the relevant part). -/
def pyWs (c : Char) : Bool :=
  c = ' ' || c = '\t' || c = '\n' || c = '\r' || c = '\x0b' || c = '\x0c'

/-- Test for an ASCII decimal digit. -/
def isDig (c : Char) : Bool := '0' ≤ c && c ≤ '9'

/-- Numeric value of a decimal digit character. -/
def digVal (c : Char) : ℕ := c.toNat - 48

/-- Value of a list of decimal digit characters. -/
def digitsVal (l : List Char) : ℕ := l.foldl (fun a c => 10 * a + digVal c) 0

/-- Acceptor for the digit part of a Python int literal: digits with single
underscores strictly between digits. -/
def intDigitsOK : List Char → Bool
  | [] => false
  | c :: cs => isDig c && intDigitsRest cs
where
  intDigitsRest : List Char → Bool
    | [] => true
    | '_' :: c :: cs => isDig c && intDigitsRest cs
    | '_' :: [] => false
    | c :: cs => isDig c && intDigitsRest cs

/-- Split an optional leading sign off a stripped literal. -/
def pySign : List Char → ℤ × List Char
  | '+' :: cs => ((1 : ℤ), cs)
  | '-' :: cs => ((-1 : ℤ), cs)
  | cs => ((1 : ℤ), cs)

/-- Core of int(): sign, then digits with optional single underscores. -/
def pyIntCore (orig : String) (l : List Char) : Except PyErr ℤ :=
  if intDigitsOK (pySign l).2 then
    .ok ((pySign l).1 * (digitsVal ((pySign l).2.filter (· ≠ '_')) : ℤ))
  else
    .error (.valueError ("invalid literal for int() with base 10: " ++ orig))

/-- Python int(s) for base 10: strip whitespace, optional sign, digits with
optional single underscores; raises ValueError otherwise. -/
def pyInt (s : String) : Except PyErr ℤ :=
  pyIntCore s (((s.data.dropWhile pyWs).reverse.dropWhile pyWs).reverse)

/-- Python float(s), on the digits-and-dots shape produced by the script's
regex groups: strip whitespace, optional sign, digits with at most one
decimal point (at least one digit overall). -/
def pyFloat (s : String) : Except PyErr ℚ :=
  let l := ((s.data.dropWhile pyWs).reverse.dropWhile pyWs).reverse
  let (sign, rest) :=
    match l with
    | '+' :: cs => ((1 : ℚ), cs)
    | '-' :: cs => ((-1 : ℚ), cs)
    | cs => ((1 : ℚ), cs)
  let intPart := rest.takeWhile isDig
  let rest2 := rest.drop intPart.length
  match rest2 with
  | [] =>
      if intPart = [] then .error (.valueError ("could not convert string to float: " ++ s))
      else .ok (sign * (digitsVal intPart : ℚ))
  | '.' :: frac =>
      if frac.all isDig ∧ (intPart ≠ [] ∨ frac ≠ []) then
        .ok (sign * ((digitsVal intPart : ℚ) +
          (digitsVal frac : ℚ) / (10 : ℚ) ^ frac.length))
      else .error (.valueError ("could not convert string to float: " ++ s))
  | _ => .error (.valueError ("could not convert string to float: " ++ s))

/-- Base-10 logarithm of a natural number below 10 pow 120 (structural
fuel recursion). -/
def natLog10 (n : ℕ) : ℕ := go 120 n
where
  go : ℕ → ℕ → ℕ
    | 0, _ => 0
    | fuel + 1, n => if n < 10 then 0 else go fuel (n / 10) + 1

/-- Decimal exponent of a positive rational: the unique e with
10 pow e <= a < 10 pow (e+1) (valid for a >= 10 pow (-40), which covers the
script's fitted parameters). -/
def decExp (a : ℚ) : ℤ :=
  (natLog10 (Int.toNat (ratFloor (a * (10 : ℚ) ^ (40 : ℕ)))) : ℤ) - 40

/-- Character for a decimal digit value. -/
def digChr (n : ℕ) : Char := Char.ofNat (48 + n % 10)

/-- Python format(v, ".2") on a rational: like the g presentation type with
precision 2, but scientific notation already for (rounded) exponent >= 1,
and fixed-point output keeps at least one digit after the decimal point.
Trailing zeros are stripped.  This is exactly the empty presentation type
with precision .2 used by the script's f-string. -/
def pyFormatDot2 (q : ℚ) : String :=
  if q = 0 then "0.0" else
  let sign := if q < 0 then "-" else ""
  let a := |q|
  let e0 := decExp a
  let m0 := pyRound (a / (10 : ℚ) ^ (e0 - 1))
  let (m, e) := if m0 = 100 then ((10 : ℤ), e0 + 1) else (m0, e0)
  let d1 := Int.toNat (m / 10)
  let d2 := Int.toNat (m % 10)
  if -4 ≤ e ∧ e < 1 then
    -- fixed-point notation
    if e = 0 then
      sign ++ String.mk ([digChr d1, '.'] ++ (if d2 = 0 then ['0'] else [digChr d2]))
    else
      sign ++ String.mk (['0', '.'] ++ List.replicate (Int.toNat (-e) - 1) '0' ++
        [digChr d1] ++ (if d2 = 0 then [] else [digChr d2]))
  else
    -- scientific notation
    let absE := Int.toNat |e|
    sign ++ String.mk ([digChr d1] ++ (if d2 = 0 then [] else ['.', digChr d2]) ++
      ['e', (if e < 0 then '-' else '+')] ++
      (if absE < 10 then ['0', digChr absE] else [digChr (absE / 10), digChr (absE % 10)]))

/-- Two-decimal fixed-point serialization (Python ".2f").  This follows the
specification's words, for comparison with the format the code uses. -/
def twoDecFmt (q : ℚ) : String :=
  let sign := if q < 0 then "-" else ""
  let n := Int.toNat (pyRound (|q| * 100))
  sign ++ toString (n / 100) ++ "." ++ String.mk [digChr (n / 10 % 10), digChr (n % 10)]

/-! ### A small regex engine (Python re semantics)

Every quantifier in the script's patterns applies to a single character
class, so a pattern is a flat list of tokens: literal characters, greedy
character-class repetitions, capture-group markers, a negative lookahead of
a literal word, and a word boundary.  Matching is leftmost with greedy
backtracking, exactly as in Python's re module. -/

/-- One token of a compiled pattern. -/
inductive RTok where
  /-- a literal character -/
  | lit (c : Char)
  /-- greedy repetition of a character class; atLeastOne selects + over * -/
  | cls (p : Char → Bool) (atLeastOne : Bool)
  /-- opening marker of capture group n -/
  | openG (n : ℕ)
  /-- closing marker of capture group n -/
  | closeG (n : ℕ)
  /-- negative lookahead for a literal word -/
  | nla (w : List Char)
  /-- word boundary -/
  | wb

/-- Python word character (for word boundaries and the w class). -/
def wordChar (c : Char) : Bool :=
  ('a' ≤ c && c ≤ 'z') || ('A' ≤ c && c ≤ 'Z') || isDig c || c = '_'

/-- Whether the character at absolute position i of s is a word character
(out of range counts as non-word). -/
def wordAt (s : List Char) (i : ℕ) : Bool :=
  match (s.drop i).head? with
  | some c => wordChar c
  | none => false

/-- Length of the maximal prefix of l whose characters satisfy p. -/
def runLen (p : Char → Bool) : List Char → ℕ
  | [] => 0
  | c :: cs => if p c then runLen p cs + 1 else 0

/-- Whether the literal word w occurs in s starting at position i. -/
def litAt (s : List Char) (i : ℕ) (w : List Char) : Bool :=
  (s.drop i).take w.length = w

/-- Captured group spans: (group index, start, stop). -/
abbrev Caps := List (ℕ × ℕ × ℕ)

/-- Match the token list against s starting at absolute position pos.
pend holds the start positions of currently open groups.  On success,
returns the end position and the captured group spans.  Backtracking for a
greedy class tries the longest repetition first. -/
def matchToks (s : List Char) : List RTok → ℕ → List (ℕ × ℕ) → Caps →
    Option (ℕ × Caps)
  | [], pos, _, caps => some (pos, caps)
  | .lit c :: rest, pos, pend, caps =>
      match (s.drop pos).head? with
      | some c' => if c' = c then matchToks s rest (pos + 1) pend caps else none
      | none => none
  | .cls p one :: rest, pos, pend, caps =>
      let maxk := runLen p (s.drop pos)
      let mink := if one then 1 else 0
      if maxk < mink then none
      else
        (List.range (maxk + 1 - mink)).findSome? fun i =>
          matchToks s rest (pos + (maxk - i)) pend caps
  | .openG n :: rest, pos, pend, caps => matchToks s rest pos ((n, pos) :: pend) caps
  | .closeG _ :: rest, pos, pend, caps =>
      match pend with
      | (m, st) :: pend' => matchToks s rest pos pend' ((m, st, pos) :: caps)
      | [] => none
  | .nla w :: rest, pos, pend, caps =>
      if litAt s pos w then none else matchToks s rest pos pend caps
  | .wb :: rest, pos, pend, caps =>
      let before := if pos = 0 then false else wordAt s (pos - 1)
      if before ≠ wordAt s pos then matchToks s rest pos pend caps else none

/-- Result of a successful match: start, end, captures. -/
structure MatchRes where
  mstart : ℕ
  mstop : ℕ
  caps : Caps
  deriving Repr, DecidableEq

/-- The substring of s spanning [a, b). -/
def sliceStr (s : List Char) (a b : ℕ) : String :=
  String.mk ((s.drop a).take (b - a))

/-- Text of capture group n of a match over s (group 0 is the whole match),
mirroring match.group(n). -/
def mGroup (s : List Char) (m : MatchRes) (n : ℕ) : String :=
  if n = 0 then sliceStr s m.mstart m.mstop
  else
    match m.caps.find? (fun c => c.1 = n) with
    | some (_, a, b) => sliceStr s a b
    | none => ""

/-- re.match: anchored at the start of the string. -/
def reMatch (pat : List RTok) (s : List Char) : Option MatchRes :=
  (matchToks s pat 0 [] []).map fun r => ⟨0, r.1, r.2⟩

/-- re.search: the leftmost match, trying successive start positions. -/
def reSearch (pat : List RTok) (s : List Char) : Option MatchRes :=
  (List.range (s.length + 1)).findSome? fun st =>
    (matchToks s pat st [] []).map fun r => ⟨st, r.1, r.2⟩

/-- First match at or after position start. -/
def reSearchFrom (pat : List RTok) (s : List Char) (start : ℕ) : Option MatchRes :=
  (List.range (s.length + 1 - start)).findSome? fun i =>
    (matchToks s pat (start + i) [] []).map fun r => ⟨start + i, r.1, r.2⟩

/-- Decompose a string into the literal pieces between matches and the
(non-overlapping, leftmost) matches themselves, as re.sub does; replacement
text is never rescanned.  fuel bounds the number of matches. -/
def reSubPieces (pat : List RTok) (s : List Char) : ℕ → ℕ → List (String ⊕ MatchRes)
  | _, 0 => []
  | pos, fuel + 1 =>
      match reSearchFrom pat s pos with
      | none => [.inl (sliceStr s pos s.length)]
      | some m =>
          if m.mstop > m.mstart then
            .inl (sliceStr s pos m.mstart) :: .inr m :: reSubPieces pat s m.mstop fuel
          else
            .inl (sliceStr s pos m.mstart) :: .inr m ::
              .inl (sliceStr s m.mstop (m.mstop + 1)) :: reSubPieces pat s (m.mstop + 1) fuel

/-- re.sub with a fallible replacement function (exceptions raised inside a
Python replacement callback propagate). -/
def reSubE (pat : List RTok) (repl : MatchRes → Except PyErr String) (s : List Char) :
    Except PyErr String := do
  let parts ← (reSubPieces pat s 0 (s.length + 1)).mapM fun piece =>
    match piece with
    | .inl txt => pure txt
    | .inr m => repl m
  pure (String.join parts)

/-! ### The script's patterns -/

/-- Class d: decimal digits; class for hex digits. -/
def isHexDig (c : Char) : Bool :=
  isDig c || ('a' ≤ c && c ≤ 'f') || ('A' ≤ c && c ≤ 'F')

/-- Any character except newline (the regex dot). -/
def anyNotNl (c : Char) : Bool := c ≠ '\n'

/-- Class s of whitespace characters. -/
def isWsCls (c : Char) : Bool := pyWs c

/-- Class for the variable-name characters, w plus hyphen. -/
def isVarChar (c : Char) : Bool := wordChar c || c = '-'

/-- Class of ASCII letters. -/
def isAlphaCls (c : Char) : Bool := ('a' ≤ c && c ≤ 'z') || ('A' ≤ c && c ≤ 'Z')

/-- Class excluding parentheses. -/
def notParen (c : Char) : Bool := c ≠ '(' && c ≠ ')'

/-- Class of digits and dots. -/
def digDot (c : Char) : Bool := isDig c || c = '.'

/-- VARIABLE. -/
def VARIABLE : List RTok := [.lit '@', .cls isVarChar true]

/-- VARIABLE_DEF. -/
def VARIABLE_DEF : List RTok :=
  [.cls isWsCls false, .openG 1, .lit '@', .cls isVarChar true, .closeG 1,
   .cls isWsCls false, .lit ':', .openG 2, .cls anyNotNl true, .closeG 2, .lit ';']

/-- HEX_COLOR. -/
def HEX_COLOR : List RTok := [.lit '#', .cls isHexDig true, .wb]

/-- FUNCTION. -/
def FUNCTION : List RTok :=
  [.wb, .nla ['m', 'i', 'x'], .openG 1, .cls wordChar true, .closeG 1, .lit '(',
   .openG 2, .cls anyNotNl true, .closeG 2, .lit ',', .cls isWsCls false,
   .openG 3, .cls anyNotNl true, .closeG 3, .lit '%', .cls isWsCls false, .lit ')']

/-- MIX_FUNCTION. -/
def MIX_FUNCTION : List RTok :=
  [.wb, .lit 'm', .lit 'i', .lit 'x', .lit '(',
   .openG 1, .cls wordChar true, .lit '(', .cls notParen true, .lit ')', .closeG 1,
   .lit ',', .cls isWsCls false,
   .openG 2, .cls wordChar true, .lit '(', .cls notParen true, .lit ')', .closeG 2,
   .lit ',', .cls isWsCls false,
   .openG 3, .cls anyNotNl true, .closeG 3, .lit '%', .cls isWsCls false, .lit ')']

/-- RGBA. -/
def RGBA : List RTok :=
  [.lit 'r', .lit 'g', .lit 'b', .lit 'a', .lit '(', .cls anyNotNl true, .lit ')']

/-- NAMED_COLOR. -/
def NAMED_COLOR : List RTok := [.cls isAlphaCls true]

/-- SCALE_L. -/
def SCALE_L : List RTok :=
  [.lit 's', .lit 'c', .lit 'a', .lit 'l', .lit 'e', .lit '-',
   .lit 'h', .lit 's', .lit 'l', .lit 'a', .lit '(',
   .cls isWsCls false, .lit '0', .cls isWsCls false, .lit ',',
   .cls isWsCls false, .lit '1', .cls isWsCls false, .lit ',',
   .cls isWsCls false, .lit '0', .cls isWsCls false, .lit ',',
   .cls isWsCls false, .lit '1', .cls isWsCls false, .lit ',',
   .cls isWsCls false, .openG 1, .cls digDot true, .closeG 1, .cls isWsCls false, .lit ',',
   .cls isWsCls false, .openG 2, .cls digDot true, .closeG 2, .cls isWsCls false, .lit ',',
   .cls isWsCls false, .lit '0', .cls isWsCls false, .lit ',',
   .cls isWsCls false, .lit '1', .cls isWsCls false, .lit ')']

/-! ### Colors -/

/-- A parsed literal color: an RGB triple with rational channel values in
[0,1] (hex decoding always yields rationals with denominator 255). -/
structure QColor where
  r : ℚ
  g : ℚ
  b : ℚ
  deriving Repr, DecidableEq

/-- Numeric value of a hex digit character. -/
def hexVal (c : Char) : ℕ :=
  if isDig c then digVal c
  else if 'a' ≤ c && c ≤ 'f' then c.toNat - 87
  else c.toNat - 55

/-- Channel value of a pair of hex digits. -/
def hexPairVal (a b : Char) : ℚ := ((16 * hexVal a + hexVal b : ℕ) : ℚ) / 255

/-- Strip Python whitespace from both ends of a character list. -/
def pyStrip (l : List Char) : List Char :=
  ((l.dropWhile pyWs).reverse.dropWhile pyWs).reverse

/-- String version of pyStrip, mirroring str.strip(). -/
def pyStripStr (s : String) : String := String.mk (pyStrip s.data)

/-- sRGBColor.new_from_rgb_hex: strip, drop a leading hash sign, then
require exactly six hex digits; raises ValueError otherwise.  (The length
check is the external colormath library's; the specification fixes hex
literals to 3 or 6 digits.) -/
def new_from_rgb_hex (s : String) : Except PyErr QColor :=
  let l0 := pyStrip s.data
  let l := match l0 with
    | '#' :: rest => rest
    | rest => rest
  if l.length = 6 ∧ l.all isHexDig then
    match l with
    | [a, b, c, d, e, f] => .ok ⟨hexPairVal a b, hexPairVal c d, hexPairVal e f⟩
    | _ => .error .typeError
  else .error (.valueError ("input is not in hex6 format: " ++ s))

/-- parse_hex_color: a 3-digit hex token (length 4 with the hash sign) is
expanded by doubling each digit, any other token is decoded as is. -/
def parse_hex_color (s : String) : Except PyErr QColor :=
  let c := if s.length = 4 then
      match s.data with
      | [_, a, b, cc] => String.mk ['#', a, a, b, b, cc, cc]
      | _ => s
    else s
  new_from_rgb_hex c

/-- Modelled from the spec: the named-color-to-hex lookup table (the
external webcolors library) is an out-of-scope collaborator (spec section
1); a representative fragment of the standard CSS3 table, none is used by
the verified claims. -/
def namedColorHex (s : String) : Option String :=
  if s = "white" then some "#ffffff"
  else if s = "black" then some "#000000"
  else if s = "red" then some "#ff0000"
  else if s = "blue" then some "#0000ff"
  else if s = "green" then some "#008000"
  else none

/-! ### Real-valued color math

Python floats are idealized as real numbers here. -/

/-- An sRGB color with real channels (sRGBColor). -/
structure SRGB where
  r : ℝ
  g : ℝ
  b : ℝ

/-- Coerce a parsed rational color into the real-valued model. -/
noncomputable def toSRGB (q : QColor) : SRGB := ⟨(q.r : ℝ), (q.g : ℝ), (q.b : ℝ)⟩

/-- Clamp a channel into [0,1] (np.clip and colormath's clamped values). -/
noncomputable def clamp01 (x : ℝ) : ℝ := max 0 (min x 1)

/-- The tone curve t. -/
noncomputable def t (x : ℝ) : ℝ :=
  if x < 0.9377 then x ^ (1.6 : ℝ) + 1 / 15 else (x - 1) / 2 + 1

/-- t_rgb applies the tone curve to each clamped channel. -/
noncomputable def t_rgb (c : SRGB) : SRGB :=
  ⟨t (clamp01 c.r), t (clamp01 c.g), t (clamp01 c.b)⟩

/-- An HSL color (HSLColor). -/
structure HSL where
  h : ℝ
  s : ℝ
  l : ℝ

/-- Modelled from the spec: the RGB-to-HSL conversion routine
(convert_color to HSLColor) is an out-of-scope external collaborator (spec
sections 1 and 4.2); the standard conversion formulas are given for
completeness.  No claim unfolds it. -/
noncomputable def rgb2hsl (c : SRGB) : HSL :=
  let mx := max c.r (max c.g c.b)
  let mn := min c.r (min c.g c.b)
  let l := (mx + mn) / 2
  let s := if mx = mn then 0 else (mx - mn) / (1 - |2 * l - 1|)
  let h := if mx = mn then 0
    else if mx = c.r then 60 * ((c.g - c.b) / (mx - mn))
    else if mx = c.g then 60 * ((c.b - c.r) / (mx - mn) + 2)
    else 60 * ((c.r - c.g) / (mx - mn) + 4)
  ⟨h, s, l⟩

/-- Modelled from the spec: the HSL-to-RGB conversion routine (see
rgb2hsl). -/
noncomputable def hsl2rgb (x : HSL) : SRGB :=
  let c := (1 - |2 * x.l - 1|) * x.s
  let hp := x.h / 60
  let hpm := hp - 2 * ((⌊hp / 2⌋ : ℤ) : ℝ)
  let xx := c * (1 - |hpm - 1|)
  let m := x.l - c / 2
  let k := ⌊hp⌋
  if k = 0 then ⟨c + m, xx + m, m⟩
  else if k = 1 then ⟨xx + m, c + m, m⟩
  else if k = 2 then ⟨m, c + m, xx + m⟩
  else if k = 3 then ⟨m, xx + m, c + m⟩
  else if k = 4 then ⟨xx + m, m, c + m⟩
  else ⟨c + m, m, xx + m⟩

/-- lighten: add amount/100 to the HSL lightness, clipped to [0,1]. -/
noncomputable def lighten (c : SRGB) (amount : ℝ) : SRGB :=
  let hsl := rgb2hsl c
  hsl2rgb ⟨hsl.h, hsl.s, clamp01 (hsl.l + amount / 100)⟩

/-- darken. -/
noncomputable def darken (c : SRGB) (amount : ℝ) : SRGB := lighten c (-amount)

/-- saturate: add amount/100 to the HSL saturation, clipped to [0,1]. -/
noncomputable def saturate (c : SRGB) (amount : ℝ) : SRGB :=
  let hsl := rgb2hsl c
  hsl2rgb ⟨hsl.h, clamp01 (hsl.s + amount / 100), hsl.l⟩

/-- desaturate. -/
noncomputable def desaturate (c : SRGB) (amount : ℝ) : SRGB := saturate c (-amount)

/-- scale_l: affine remap of the HSL lightness, without clipping. -/
noncomputable def scale_l (c : SRGB) (l0 l1 : ℝ) : SRGB :=
  let hsl := rgb2hsl c
  hsl2rgb ⟨hsl.h, hsl.s, l0 + hsl.l * (l1 - l0)⟩

/-- Euclidean RGB distance (np.linalg.norm of the channel differences). -/
noncomputable def rgbDist (a b : SRGB) : ℝ :=
  Real.sqrt ((a.r - b.r) ^ 2 + (a.g - b.g) ^ 2 + (a.b - b.b) ^ 2)

/-- Hex rendering of one upscaled channel (the percent-02x conversion). -/
def hexByte (n : ℤ) : String :=
  let ds := Nat.toDigits 16 n.toNat
  String.mk (if ds.length < 2 then '0' :: ds else ds)

/-- get_rgb_hex: each channel upscaled by 255 with round-half-up (the
colormath floor(0.5 + 255 x) rule) and rendered as two hex digits. -/
noncomputable def get_rgb_hex (c : SRGB) : String :=
  "#" ++ hexByte ⌊0.5 + c.r * 255⌋ ++ hexByte ⌊0.5 + c.g * 255⌋ ++ hexByte ⌊0.5 + c.b * 255⌋

/-! ### Expression model and parser -/

/-- A parsed expression: a literal color, an opaque passthrough string
(variable references and unrecognized text), or an adjustment call
(the Function class flattened into the inductive). -/
inductive Value where
  | color (c : QColor)
  | str (s : String)
  | fn (name : String) (argument : Value) (value : String)
  deriving Repr, DecidableEq

/-- The process-wide variable mapping: insertion-ordered, keyed by the
at-sign-prefixed variable name. -/
abbrev VarMap := List (String × Value)

/-- Dictionary lookup. -/
def lookupVar (vars : VarMap) (n : String) : Option Value :=
  (vars.find? (fun p => p.1 = n)).map (·.2)

/-- Python dict assignment: overwrite in place or append. -/
def pyInsert (vars : VarMap) (n : String) (v : Value) : VarMap :=
  if vars.any (fun p => p.1 = n) then
    vars.map (fun p => if p.1 = n then (n, v) else p)
  else vars ++ [(n, v)]

/-- parse_definition: classify a definition string in the script's fixed
priority order (hex literal, rgba passthrough, function call, variable
reference, named color, unrecognized passthrough).  The fuel bounds the
nesting depth of function calls; the inner argument text of a call is
strictly shorter than the call text, so any fuel of at least the string
length is exact. -/
def parse_definition : ℕ → String → Except PyErr Value
  | fuel, d =>
    match reMatch HEX_COLOR d.data with
    | some m => (parse_hex_color (mGroup d.data m 0)).map .color
    | none =>
    match reMatch RGBA d.data with
    | some _ => .ok (.str d)
    | none =>
    match reMatch FUNCTION d.data, fuel with
    | some m, fuel' + 1 => do
        let arg ← parse_definition fuel' (mGroup d.data m 2)
        .ok (.fn (mGroup d.data m 1) arg (mGroup d.data m 3))
    | some _, 0 => .error .fuelExhausted
    | none, _ =>
    match reMatch VARIABLE d.data with
    | some _ => .ok (.str d)
    | none =>
    match reMatch NAMED_COLOR d.data with
    | some _ =>
        match namedColorHex d with
        | some hx => (new_from_rgb_hex hx).map .color
        | none => .ok (.str d)
    | none => .ok (.str d)

/-- parse_function: build a Function node from a FUNCTION match. -/
def parse_function (fuel : ℕ) (s : List Char) (m : MatchRes) : Except PyErr Value := do
  let arg ← parse_definition fuel (mGroup s m 2)
  .ok (.fn (mGroup s m 1) arg (mGroup s m 3))

/-! ### Serialization helpers -/

/-- Python percent-.4f fixed formatting of a rational. -/
def fixed4 (q : ℚ) : String :=
  let sign := if q < 0 then "-" else ""
  let n := Int.toNat (pyRound (|q| * 10000))
  sign ++ toString (n / 10000) ++ "." ++
    String.mk [digChr (n / 1000 % 10), digChr (n / 100 % 10), digChr (n / 10 % 10), digChr (n % 10)]

/-- Modelled from the spec: the textual rendering of a raw sRGBColor object
(colormath's str) is external; it renders each channel with four decimals.
Only used for branches of f-string interpolation that no claim exercises. -/
def colorStr (c : QColor) : String :=
  "sRGBColor (rgb_r:" ++ fixed4 c.r ++ " rgb_g:" ++ fixed4 c.g ++ " rgb_b:" ++ fixed4 c.b ++ ")"

/-- Python repr of a parsed expression (Function.__repr__ and the str and
color fallbacks). -/
def pyRepr : Value → String
  | .color c => colorStr c
  | .str s => "'" ++ s ++ "'"
  | .fn n a v => "Function(" ++ n ++ ", " ++ pyRepr a ++ ", '" ++ v ++ "')"

/-- Python str of a parsed expression, as interpolated by an f-string. -/
def pyStr : Value → String
  | .color c => colorStr c
  | .str s => s
  | .fn n a v => pyRepr (.fn n a v)

/-! ### The re-fitting optimizer -/

/-- The external scipy nelder-mead search over one parameter: it receives
the objective and the seed and returns some parameter vector.  All theorems
quantify over it, so they hold for every optimizer outcome. -/
def Min1 : Type := (ℚ → ℝ) → ℚ → ℚ

/-- The external scipy nelder-mead search over two parameters. -/
def Min2 : Type := (ℚ × ℚ → ℝ) → ℚ × ℚ → ℚ × ℚ

/-- Dispatch over the adjustment-function names, mirroring the script's
globals()-by-name lookup restricted to its four adjustment functions. -/
noncomputable def funByName (n : String) : Option (SRGB → ℝ → SRGB) :=
  if n = "lighten" then some lighten
  else if n = "darken" then some darken
  else if n = "saturate" then some saturate
  else if n = "desaturate" then some desaturate
  else none

/-- The string-dereferencing loop of transform_fun and transform_2fun:
while the argument is a string, look it up in the variable mapping.
Missing names raise KeyError; the fuel only guards against self-referential
definitions (on which the Python loop would not terminate). -/
def resolveLoop (vars : VarMap) : ℕ → String → Except PyErr Value
  | 0, _ => .error .fuelExhausted
  | fuel + 1, s =>
      match lookupVar vars s with
      | none => .error (.keyError s)
      | some (.str s') => resolveLoop vars fuel s'
      | some v => .ok v

/-- Non-string values pass the while-loop untouched; strings enter it. -/
def resolveVar (vars : VarMap) (fuel : ℕ) : Value → Except PyErr Value
  | .str s => resolveLoop vars fuel s
  | v => .ok v

/-- Function.eval: numerically evaluate a call whose argument is a variable
name; returns none (Python None) when the argument is not a name. -/
noncomputable def Function.eval (vars : VarMap) (name : String) (argument : Value)
    (value : String) : Except PyErr (Option SRGB) :=
  match argument with
  | .str s => do
      let argv ← match lookupVar vars s with
        | some v => pure v
        | none => Except.error (.keyError s)
      let fn ← match funByName name with
        | some f => pure f
        | none => Except.error (.keyError name)
      let n ← pyInt value
      match argv with
      | .color q => .ok (some (fn (toSRGB q) (n : ℝ)))
      | _ => .error .typeError
  | _ => .ok none

/-- transform_fun: resolve the argument to a concrete color, build the
single-parameter RGB-distance objective between the re-adjusted tone-curved
base and the tone-curved original result, and run the external search
seeded at the original percentage. -/
noncomputable def transform_fun (M : Min1) (vars : VarMap) (fun_str : String)
    (val : ℤ) (arg0 : Value) : Except PyErr ℚ := do
  let argv ← resolveVar vars (vars.length + 1) arg0
  let argOpt ← match argv with
    | .fn n a v => Function.eval vars n a v
    | .color q => pure (some (toSRGB q))
    | .str _ => pure none
  let fn ← match funByName fun_str with
    | some f => pure f
    | none => Except.error (.keyError fun_str)
  let argc ← match argOpt with
    | some c => pure c
    | none => Except.error PyErr.typeError
  let res := fn argc (val : ℝ)
  let arg_t := t_rgb argc
  let res_t_goal := t_rgb res
  let minfun : ℚ → ℝ := fun x => rgbDist (fn arg_t (x : ℝ)) res_t_goal
  .ok (M minfun (val : ℚ))

/-- transform_2fun: the two-parameter variant for a chained call. -/
noncomputable def transform_2fun (M : Min2) (vars : VarMap) (fun1_str : String)
    (val1 : ℤ) (fun2_str : String) (val2 : ℤ) (arg0 : Value) : Except PyErr (ℚ × ℚ) := do
  let argv ← resolveVar vars (vars.length + 1) arg0
  let argOpt ← match argv with
    | .fn n a v => Function.eval vars n a v
    | .color q => pure (some (toSRGB q))
    | .str _ => pure none
  let fn1 ← match funByName fun1_str with
    | some f => pure f
    | none => Except.error (.keyError fun1_str)
  let fn2 ← match funByName fun2_str with
    | some f => pure f
    | none => Except.error (.keyError fun2_str)
  let argc ← match argOpt with
    | some c => pure c
    | none => Except.error PyErr.typeError
  let res := fn2 (fn1 argc (val1 : ℝ)) (val2 : ℝ)
  let arg_t := t_rgb argc
  let res_t_goal := t_rgb res
  let minfun : ℚ × ℚ → ℝ := fun x => rgbDist (fn2 (fn1 arg_t (x.1 : ℝ)) (x.2 : ℝ)) res_t_goal
  .ok (M minfun ((val1 : ℚ), (val2 : ℚ)))

/-- transform_scale_l: the identity rescale is passed through verbatim;
otherwise the two parameters are re-fitted against the four reference
palette variables and serialized with the Python .2 format. -/
noncomputable def transform_scale_l (M2 : Min2) (vars : VarMap) (l0 l1 : ℚ) :
    Except PyErr String :=
  if l0 = 0 ∧ l1 = 1 then .ok "scale-hsla(0,1,0,1,0,   1,   0,1)"
  else do
    let colors ← ["@forest", "@grass", "@farmland", "@residential"].mapM fun n =>
      match lookupVar vars n with
      | some v => pure v
      | none => Except.error (PyErr.keyError n)
    let colorsC ← colors.mapM fun v =>
      match v with
      | Value.color q => pure (toSRGB q)
      | _ => Except.error PyErr.typeError
    let res := colorsC.map fun c => scale_l c (l0 : ℝ) (l1 : ℝ)
    let colors_t := colorsC.map t_rgb
    let res_t_goal := res.map t_rgb
    let minfun : ℚ × ℚ → ℝ := fun x =>
      ((colors_t.map fun c => scale_l c (x.1 : ℝ) (x.2 : ℝ)).zip res_t_goal).foldl
        (fun acc p => acc + rgbDist p.1 p.2) 0
    let p := M2 minfun (l0, l1)
    .ok ("scale-hsla(0,1,0,1," ++ pyFormatDot2 p.1 ++ "," ++ pyFormatDot2 p.2 ++ ",0,1)")

/-- Function.print_transform: re-fit and serialize a parsed call.  In the
chained branch the innermost argument is interpolated by str; in the single
branch a literal color argument is rendered as the tone-curved hex. -/
noncomputable def print_transform (M1 : Min1) (M2 : Min2) (vars : VarMap) :
    Value → Except PyErr String
  | .fn name (.fn iname iarg ivalue) value => do
      let val1 ← pyInt ivalue
      let val2 ← pyInt value
      let p ← transform_2fun M2 vars iname val1 name val2 iarg
      .ok (name ++ "(" ++ iname ++ "(" ++ pyStr iarg ++ ", " ++
        toString (pyRound p.1) ++ "%), " ++ toString (pyRound p.2) ++ "%)")
  | .fn name arg value => do
      let val ← pyInt value
      let v ← transform_fun M1 vars name val arg
      let argS := match arg with
        | .color q => get_rgb_hex (t_rgb (toSRGB q))
        | a => pyStr a
      .ok (name ++ "(" ++ argS ++ ", " ++ toString (pyRound v) ++ "%)")
  | _ => .error .attrError

/-- Variable.print_definition: serialize a stored variable definition, with
the at-sign-prefixed name kept as parsed. -/
noncomputable def print_definition (M1 : Min1) (M2 : Min2) (vars : VarMap)
    (name : String) (value : Value) : Except PyErr String :=
  match value with
  | .color q => .ok (name ++ ": " ++ get_rgb_hex (t_rgb (toSRGB q)))
  | .str s => .ok (name ++ ": " ++ s)
  | .fn n a v => do
      let d ← print_transform M1 M2 vars (.fn n a v)
      .ok (name ++ ": " ++ d)

/-! ### The line rewriter -/

/-- transform, per line: classify the line in the fixed priority order
(variable definition, luminance rescale, mix, adjustment function, bare hex
literals) and rewrite it, threading the variable mapping. -/
noncomputable def transformLine (M1 : Min1) (M2 : Min2) (vars : VarMap) (line : String) :
    Except PyErr (String × VarMap) :=
  match reMatch VARIABLE_DEF line.data with
  | some m => do
      let name := mGroup line.data m 1
      let defn := pyStripStr (mGroup line.data m 2)
      let value ← parse_definition line.length defn
      let vars' := pyInsert vars name value
      let out ← print_definition M1 M2 vars' name value
      .ok (out ++ ";", vars')
  | none =>
    match reSearch SCALE_L line.data with
    | some _ => do
        let out ← reSubE SCALE_L (fun m => do
            let l0 ← pyFloat (mGroup line.data m 1)
            let l1 ← pyFloat (mGroup line.data m 2)
            transform_scale_l M2 vars l0 l1) line.data
        .ok (out, vars)
    | none =>
      match reSearch MIX_FUNCTION line.data with
      | some _ => do
          let out ← reSubE MIX_FUNCTION (fun m => do
              let g1 := mGroup line.data m 1
              let g2 := mGroup line.data m 2
              let m1 ← match reMatch FUNCTION g1.data with
                | some mm => pure mm
                | none => Except.error PyErr.attrError
              let f1 ← parse_function line.length g1.data m1
              let s1 ← print_transform M1 M2 vars f1
              let m2 ← match reMatch FUNCTION g2.data with
                | some mm => pure mm
                | none => Except.error PyErr.attrError
              let f2 ← parse_function line.length g2.data m2
              let s2 ← print_transform M1 M2 vars f2
              .ok ("mix(" ++ s1 ++ ", " ++ s2 ++ ", " ++ mGroup line.data m 3 ++ "%)")) line.data
          .ok (out, vars)
      | none =>
        match reSearch FUNCTION line.data with
        | some _ => do
            let out ← reSubE FUNCTION (fun m => do
                let f ← parse_function line.length line.data m
                print_transform M1 M2 vars f) line.data
            .ok (out, vars)
        | none => do
            let out ← reSubE HEX_COLOR (fun m => do
                let c ← parse_hex_color (mGroup line.data m 0)
                .ok (get_rgb_hex (t_rgb (toSRGB c)))) line.data
            .ok (out, vars)

/-! ### Concrete optimizer outcomes used in closed statements

The scipy search is a black box that returns some float vector; these stubs
represent particular outcomes (returning the seed, or fixed values). -/

/-- An optimizer outcome that returns the seed unchanged. -/
def seedMin1 : Min1 := fun _ x => x

/-- An optimizer outcome that returns the seed pair unchanged. -/
def seedMin2 : Min2 := fun _ x => x

/-- An optimizer outcome returning a fixed parameter. -/
def constMin1 (c : ℚ) : Min1 := fun _ _ => c

/-- An optimizer outcome returning a fixed parameter pair. -/
def constMin2 (c : ℚ × ℚ) : Min2 := fun _ _ => c

/-! ### Tone curve analysis

The rational-power bridge: for nonnegative reals, comparisons against
x ^ 1.6 = x ^ (8/5) reduce to comparisons of the integer powers x ^ 8 and
c ^ 5. -/

lemma rpow16_pow5 {x : ℝ} (hx : 0 ≤ x) : (x ^ (1.6 : ℝ)) ^ (5 : ℕ) = x ^ (8 : ℕ) := by
  rw [← Real.rpow_natCast (x ^ (1.6 : ℝ)) 5, ← Real.rpow_mul hx]
  rw [show ((1.6 : ℝ) * ((5 : ℕ) : ℝ)) = ((8 : ℕ) : ℝ) by norm_num, Real.rpow_natCast]

lemma rpow16_lt_right {x c : ℝ} (hx : 0 ≤ x) (hc : 0 ≤ c) :
    x ^ (1.6 : ℝ) < c ↔ x ^ (8 : ℕ) < c ^ (5 : ℕ) := by
  rw [← rpow16_pow5 hx,
    pow_lt_pow_iff_left₀ (Real.rpow_nonneg hx _) hc (by norm_num : (5 : ℕ) ≠ 0)]

lemma rpow16_lt_left {x c : ℝ} (hx : 0 ≤ x) (hc : 0 ≤ c) :
    c < x ^ (1.6 : ℝ) ↔ c ^ (5 : ℕ) < x ^ (8 : ℕ) := by
  rw [← rpow16_pow5 hx,
    pow_lt_pow_iff_left₀ hc (Real.rpow_nonneg hx _) (by norm_num : (5 : ℕ) ≠ 0)]

lemma rpow16_le_right {x c : ℝ} (hx : 0 ≤ x) (hc : 0 ≤ c) :
    x ^ (1.6 : ℝ) ≤ c ↔ x ^ (8 : ℕ) ≤ c ^ (5 : ℕ) := by
  constructor
  · intro h
    rw [← rpow16_pow5 hx]
    exact pow_le_pow_left₀ (Real.rpow_nonneg hx _) h 5
  · intro h
    by_contra hlt
    push_neg at hlt
    exact absurd ((rpow16_lt_left hx hc).mp hlt) (not_lt.mpr h)

lemma rpow16_le_left {x c : ℝ} (hx : 0 ≤ x) (hc : 0 ≤ c) :
    c ≤ x ^ (1.6 : ℝ) ↔ c ^ (5 : ℕ) ≤ x ^ (8 : ℕ) := by
  constructor
  · intro h
    rw [← rpow16_pow5 hx]
    exact pow_le_pow_left₀ hc h 5
  · intro h
    by_contra hlt
    push_neg at hlt
    exact absurd ((rpow16_lt_right hx hc).mp hlt) (not_lt.mpr h)

lemma t_of_lt {x : ℝ} (h : x < 0.9377) : t x = x ^ (1.6 : ℝ) + 1 / 15 := by
  unfold t
  rw [if_pos h]

lemma t_of_ge {x : ℝ} (h : 0.9377 ≤ x) : t x = (x - 1) / 2 + 1 := by
  unfold t
  rw [if_neg (not_lt.mpr h)]

/-- C1: the claim asserts, among other properties, that t is monotonically
non-decreasing on [0,1].  It is not: the left limit at the breakpoint
exceeds the value of the second branch, so t(0.93769) > t(0.9377). -/
theorem C1_counterexample : ¬ MonotoneOn t (Set.Icc (0 : ℝ) 1) := by
  intro h
  have h1 : t 0.93769 ≤ t 0.9377 :=
    h (a := 0.93769) ⟨by norm_num, by norm_num⟩ (b := 0.9377)
      ⟨by norm_num, by norm_num⟩ (by norm_num)
  have e1 : t 0.93769 = (0.93769 : ℝ) ^ (1.6 : ℝ) + 1 / 15 := t_of_lt (by norm_num)
  have e2 : t 0.9377 = ((0.9377 : ℝ) - 1) / 2 + 1 := t_of_ge (by norm_num)
  have hgt : (54131 / 60000 : ℝ) < (0.93769 : ℝ) ^ (1.6 : ℝ) :=
    (rpow16_lt_left (by norm_num) (by norm_num)).mpr (by norm_num)
  rw [e1, e2] at h1
  norm_num at h1 hgt
  linarith

/-- C1 (amended): for every x in [0,1], t(x) lies in [1/15, 1]; t follows
the two claimed branch formulas; t is monotonically non-decreasing on each
branch, namely on [0, 0.9377) and on [0.9377, 1] (but not on all of [0,1]:
there is a downward jump of about 2e-5 at the breakpoint); and the two
branch formulas evaluated at x = 0.9377 differ by less than 1e-3. -/
theorem C1_amended :
    (∀ x : ℝ, x < 0.9377 → t x = x ^ (1.6 : ℝ) + 1 / 15) ∧
    (∀ x : ℝ, 0.9377 ≤ x → t x = (x - 1) / 2 + 1) ∧
    (∀ x ∈ Set.Icc (0 : ℝ) 1, t x ∈ Set.Icc (1 / 15 : ℝ) 1) ∧
    MonotoneOn t (Set.Ico (0 : ℝ) 0.9377) ∧
    MonotoneOn t (Set.Icc (0.9377 : ℝ) 1) ∧
    |((0.9377 : ℝ) ^ (1.6 : ℝ) + 1 / 15) - (((0.9377 : ℝ) - 1) / 2 + 1)| < 1 / 1000 := by
  have hup : (0.9377 : ℝ) ^ (1.6 : ℝ) ≤ 14 / 15 :=
    (rpow16_le_right (by norm_num) (by norm_num)).mpr (by norm_num)
  refine ⟨fun x hx => t_of_lt hx, fun x hx => t_of_ge hx, ?_, ?_, ?_, ?_⟩
  · intro x hx
    rcases lt_or_le x 0.9377 with hlt | hge
    · rw [t_of_lt hlt]
      constructor
      · have := Real.rpow_nonneg hx.1 (1.6 : ℝ)
        linarith
      · have hmono : x ^ (1.6 : ℝ) ≤ (0.9377 : ℝ) ^ (1.6 : ℝ) :=
          Real.rpow_le_rpow hx.1 (le_of_lt hlt) (by norm_num)
        linarith
    · rw [t_of_ge hge]
      constructor
      · linarith
      · have := hx.2
        linarith
  · intro a ha b hb hab
    rw [t_of_lt ha.2, t_of_lt hb.2]
    have := Real.rpow_le_rpow ha.1 hab (by norm_num : (0 : ℝ) ≤ 1.6)
    linarith
  · intro a ha b hb hab
    rw [t_of_ge ha.1, t_of_ge hb.1]
    linarith
  · have hlow : (54131 / 60000 : ℝ) < (0.9377 : ℝ) ^ (1.6 : ℝ) :=
      (rpow16_lt_left (by norm_num) (by norm_num)).mpr (by norm_num)
    have hhigh : (0.9377 : ℝ) ^ (1.6 : ℝ) < 54191 / 60000 :=
      (rpow16_lt_right (by norm_num) (by norm_num)).mpr (by norm_num)
    rw [abs_lt]
    constructor <;> [linarith; linarith]

/-- C1 witness: the amended theorem applied at x = 0.5 (range membership)
and at the pair 0.3 <= 0.5 (monotonicity on the first branch). -/
theorem C1_witness : t 0.5 ∈ Set.Icc (1 / 15 : ℝ) 1 ∧ t 0.3 ≤ t 0.5 := by
  constructor
  · exact C1_amended.2.2.1 0.5 ⟨by norm_num, by norm_num⟩
  · exact C1_amended.2.2.2.1 (Set.mem_Ico.mpr ⟨by norm_num, by norm_num⟩)
      (Set.mem_Ico.mpr ⟨by norm_num, by norm_num⟩) (by norm_num)

/-! ### Hex rendering of tone-curved literal colors -/

lemma clamp01_of_mem {x : ℝ} (h0 : 0 ≤ x) (h1 : x ≤ 1) : clamp01 x = x := by
  unfold clamp01
  rw [min_eq_left h1, max_eq_right h0]

lemma t_one : t 1 = 1 := by
  rw [t_of_ge (by norm_num)]
  norm_num

lemma t_zero : t 0 = 1 / 15 := by
  rw [t_of_lt (by norm_num), Real.zero_rpow (by norm_num)]
  norm_num

lemma floor_half_add {x : ℝ} {n : ℤ} (h1 : (n : ℝ) ≤ 0.5 + x) (h2 : 0.5 + x < (n : ℝ) + 1) :
    ⌊(0.5 : ℝ) + x⌋ = n := Int.floor_eq_iff.mpr ⟨h1, h2⟩

/-- The tone-curved pure red #ff0000 renders as #ff1111. -/
lemma hexT_red : get_rgb_hex (t_rgb (toSRGB ⟨1, 0, 0⟩)) = "#ff1111" := by
  have c1 : clamp01 ((1 : ℚ) : ℝ) = 1 := by
    rw [show ((1 : ℚ) : ℝ) = 1 by norm_num]
    exact clamp01_of_mem (by norm_num) (by norm_num)
  have c0 : clamp01 ((0 : ℚ) : ℝ) = 0 := by
    rw [show ((0 : ℚ) : ℝ) = 0 by norm_num]
    exact clamp01_of_mem (by norm_num) (by norm_num)
  show "#" ++ hexByte ⌊(0.5 : ℝ) + t (clamp01 ((1 : ℚ) : ℝ)) * 255⌋ ++
      hexByte ⌊(0.5 : ℝ) + t (clamp01 ((0 : ℚ) : ℝ)) * 255⌋ ++
      hexByte ⌊(0.5 : ℝ) + t (clamp01 ((0 : ℚ) : ℝ)) * 255⌋ = "#ff1111"
  rw [c1, c0, t_one, t_zero]
  rw [show ⌊(0.5 : ℝ) + 1 * 255⌋ = 255 from floor_half_add (by norm_num) (by norm_num)]
  rw [show ⌊(0.5 : ℝ) + 1 / 15 * 255⌋ = 17 from floor_half_add (by norm_num) (by norm_num)]
  rfl

/-- Bounds for the red channel of #a9bcc9 through the tone curve. -/
lemma water_chan_r : ⌊(0.5 : ℝ) + t ((169 : ℝ) / 255) * 255⌋ = 149 := by
  rw [t_of_lt (by norm_num)]
  have hlow : (263 / 510 : ℝ) ≤ ((169 : ℝ) / 255) ^ (1.6 : ℝ) :=
    (rpow16_le_left (by norm_num) (by norm_num)).mpr (by norm_num)
  have hhigh : ((169 : ℝ) / 255) ^ (1.6 : ℝ) < 265 / 510 :=
    (rpow16_lt_right (by norm_num) (by norm_num)).mpr (by norm_num)
  exact floor_half_add (by push_cast; linarith) (by push_cast; linarith)

/-- Bounds for the green channel of #a9bcc9 through the tone curve. -/
lemma water_chan_g : ⌊(0.5 : ℝ) + t ((188 : ℝ) / 255) * 255⌋ = 174 := by
  rw [t_of_lt (by norm_num)]
  have hlow : (313 / 510 : ℝ) ≤ ((188 : ℝ) / 255) ^ (1.6 : ℝ) :=
    (rpow16_le_left (by norm_num) (by norm_num)).mpr (by norm_num)
  have hhigh : ((188 : ℝ) / 255) ^ (1.6 : ℝ) < 315 / 510 :=
    (rpow16_lt_right (by norm_num) (by norm_num)).mpr (by norm_num)
  exact floor_half_add (by push_cast; linarith) (by push_cast; linarith)

/-- Bounds for the blue channel of #a9bcc9 through the tone curve. -/
lemma water_chan_b : ⌊(0.5 : ℝ) + t ((201 : ℝ) / 255) * 255⌋ = 191 := by
  rw [t_of_lt (by norm_num)]
  have hlow : (347 / 510 : ℝ) ≤ ((201 : ℝ) / 255) ^ (1.6 : ℝ) :=
    (rpow16_le_left (by norm_num) (by norm_num)).mpr (by norm_num)
  have hhigh : ((201 : ℝ) / 255) ^ (1.6 : ℝ) < 349 / 510 :=
    (rpow16_lt_right (by norm_num) (by norm_num)).mpr (by norm_num)
  exact floor_half_add (by push_cast; linarith) (by push_cast; linarith)

/-- The tone-curved water color #a9bcc9 renders as #95aebf. -/
lemma hexT_water : get_rgb_hex (t_rgb (toSRGB ⟨169 / 255, 188 / 255, 201 / 255⟩)) = "#95aebf" := by
  have cr : clamp01 ((169 / 255 : ℚ) : ℝ) = (169 : ℝ) / 255 := by
    rw [show ((169 / 255 : ℚ) : ℝ) = (169 : ℝ) / 255 by norm_num]
    exact clamp01_of_mem (by norm_num) (by norm_num)
  have cg : clamp01 ((188 / 255 : ℚ) : ℝ) = (188 : ℝ) / 255 := by
    rw [show ((188 / 255 : ℚ) : ℝ) = (188 : ℝ) / 255 by norm_num]
    exact clamp01_of_mem (by norm_num) (by norm_num)
  have cb : clamp01 ((201 / 255 : ℚ) : ℝ) = (201 : ℝ) / 255 := by
    rw [show ((201 / 255 : ℚ) : ℝ) = (201 : ℝ) / 255 by norm_num]
    exact clamp01_of_mem (by norm_num) (by norm_num)
  show "#" ++ hexByte ⌊(0.5 : ℝ) + t (clamp01 ((169 / 255 : ℚ) : ℝ)) * 255⌋ ++
      hexByte ⌊(0.5 : ℝ) + t (clamp01 ((188 / 255 : ℚ) : ℝ)) * 255⌋ ++
      hexByte ⌊(0.5 : ℝ) + t (clamp01 ((201 / 255 : ℚ) : ℝ)) * 255⌋ = "#95aebf"
  rw [cr, cg, cb, water_chan_r, water_chan_g, water_chan_b]
  rfl

/-! ### C2: serialization of a re-fitted single call -/

unseal Rat.add Rat.sub Rat.mul Rat.inv in
/-- C2: the claim asserts that re-fitting lighten(at-red, 20%) with
at-red = #ff0000 produces a line of the shape lighten(hex, int%) whose hex
is t_rgb(#ff0000).  It does not: a variable-reference argument is
serialized literally, so the output is lighten(@red, 20%) (here for the
optimizer outcome that returns its seed), which does not start with
lighten(#. -/
theorem C2_counterexample :
    print_transform seedMin1 seedMin2 [("@red", .color ⟨1, 0, 0⟩)]
      (.fn "lighten" (.str "@red") "20") = .ok "lighten(@red, 20%)" ∧
    List.isPrefixOf "lighten(#".data "lighten(@red, 20%)".data = false := by
  exact ⟨rfl, by decide⟩

unseal Rat.add Rat.sub Rat.mul Rat.inv in
/-- C2 (amended): for every optimizer outcome r, re-fitting a single call
produces exactly the shape name(arg, int%), where the percentage is the
round-half-even of the fitted value; a variable-reference argument is kept
literally (lighten(@red, ...%)), while a literal hex argument is serialized
as the tone-curved hex, here t_rgb(#ff0000) = #ff1111. -/
theorem C2_amended (r : ℚ) :
    print_transform (constMin1 r) seedMin2 [("@red", .color ⟨1, 0, 0⟩)]
      (.fn "lighten" (.str "@red") "20") =
      .ok ("lighten(@red, " ++ toString (pyRound r) ++ "%)") ∧
    print_transform (constMin1 r) seedMin2 []
      (.fn "lighten" (.color ⟨1, 0, 0⟩) "20") =
      .ok ("lighten(#ff1111, " ++ toString (pyRound r) ++ "%)") := by
  constructor
  · rfl
  · have h : print_transform (constMin1 r) seedMin2 []
        (.fn "lighten" (.color ⟨1, 0, 0⟩) "20") =
        .ok ("lighten" ++ "(" ++ get_rgb_hex (t_rgb (toSRGB ⟨1, 0, 0⟩)) ++ ", " ++
          toString (pyRound r) ++ "%)") := rfl
    rw [h, hexT_red]
    rfl

/-! ### C3: serialization of a re-fitted chained call -/

unseal Rat.add Rat.sub Rat.mul Rat.inv in
/-- C3: the claim asserts that re-fitting saturate(darken(at-red, 10%), 5%)
produces saturate(darken(hex, int%), int%) with the innermost argument
rendered as a tone-curved hex.  It does not: the chained branch
interpolates the parsed innermost argument as is, so the variable reference
@red survives literally and the output does not start with
saturate(darken(#. -/
theorem C3_counterexample :
    print_transform seedMin1 seedMin2 [("@red", .color ⟨1, 0, 0⟩)]
      (.fn "saturate" (.fn "darken" (.str "@red") "10") "5") =
      .ok "saturate(darken(@red, 10%), 5%)" ∧
    List.isPrefixOf "saturate(darken(#".data "saturate(darken(@red, 10%), 5%)".data = false := by
  exact ⟨rfl, by decide⟩

unseal Rat.add Rat.sub Rat.mul Rat.inv in
/-- C3 (amended): the parser turns the source text into the nested call
with both names in order, and for every optimizer outcome (r1, r2) the
rewriter emits saturate(darken(@red, int%), int%): both function names and
the nesting order are preserved and both re-fitted percentages are rounded
to integers, but the innermost argument is serialized as the literal parsed
argument text (here the variable reference @red), not as a hex. -/
theorem C3_amended (r1 r2 : ℚ) :
    parse_definition 40 "saturate(darken(@red, 10%), 5%)" =
      .ok (.fn "saturate" (.fn "darken" (.str "@red") "10") "5") ∧
    print_transform seedMin1 (constMin2 (r1, r2)) [("@red", .color ⟨1, 0, 0⟩)]
      (.fn "saturate" (.fn "darken" (.str "@red") "10") "5") =
      .ok ("saturate(darken(@red, " ++ toString (pyRound r1) ++ "%), " ++
        toString (pyRound r2) ++ "%)") := by
  exact ⟨rfl, rfl⟩

/-! ### C8: serialization of a variable-definition line -/

unseal Rat.add Rat.sub Rat.mul Rat.inv in
/-- C8: the claim asserts that the input line at-water: #a9bcc9; produces
the output line water: hex; with the at sign dropped.  It does not: the
stored name is the full group @water, so the output line is
@water: #95aebf; (with #95aebf = hex of t_rgb(#a9bcc9)). -/
theorem C8_counterexample :
    transformLine seedMin1 seedMin2 [] "@water: #a9bcc9;" =
      .ok ("@water: #95aebf;", [("@water", .color ⟨169 / 255, 188 / 255, 201 / 255⟩)]) ∧
    "@water: #95aebf;" ≠ "water: #95aebf;" := by
  constructor
  · have h : transformLine seedMin1 seedMin2 [] "@water: #a9bcc9;" =
        .ok ("@water" ++ ": " ++
          get_rgb_hex (t_rgb (toSRGB ⟨169 / 255, 188 / 255, 201 / 255⟩)) ++ ";",
          [("@water", .color ⟨169 / 255, 188 / 255, 201 / 255⟩)]) := rfl
    rw [h, hexT_water]
    rfl
  · decide

unseal Rat.add Rat.sub Rat.mul Rat.inv in
/-- C8 (amended): for every minimizer, every prior variable mapping, the
variable-definition line at-water: #a9bcc9; is parsed, stored under the
name @water, and serialized as @water: #95aebf; — the at-sign-prefixed name
is kept, and the color definition is replaced by its tone-curve-transformed
hex #95aebf = hex of t_rgb(#a9bcc9). -/
theorem C8_amended (M1 : Min1) (M2 : Min2) (vars : VarMap) :
    transformLine M1 M2 vars "@water: #a9bcc9;" =
      .ok ("@water: #95aebf;",
        pyInsert vars "@water" (.color ⟨169 / 255, 188 / 255, 201 / 255⟩)) := by
  have h : transformLine M1 M2 vars "@water: #a9bcc9;" =
      .ok ("@water" ++ ": " ++
        get_rgb_hex (t_rgb (toSRGB ⟨169 / 255, 188 / 255, 201 / 255⟩)) ++ ";",
        pyInsert vars "@water" (.color ⟨169 / 255, 188 / 255, 201 / 255⟩)) := rfl
  rw [h, hexT_water]
  rfl

/-! ### C4: identity luminance rescale is passed through -/

unseal Rat.add Rat.sub Rat.mul Rat.inv in
/-- C4: for the identity parameters l0 = 0, l1 = 1, the rescale optimizer
returns the fixed call text without consulting the reference palette: the
result is the same for every optimizer and every variable mapping,
including the empty one; and a whole line is rewritten accordingly. -/
theorem C4_identity_passthrough (M1 : Min1) (M2 : Min2) (vars : VarMap) :
    transform_scale_l M2 vars 0 1 = .ok "scale-hsla(0,1,0,1,0,   1,   0,1)" ∧
    transformLine M1 M2 vars "x: scale-hsla(0,1,0,1,0,1,0,1);" =
      .ok ("x: scale-hsla(0,1,0,1,0,   1,   0,1);", vars) := by
  exact ⟨rfl, rfl⟩

/-! ### C6: line classification order and substitution extent -/

unseal Rat.add Rat.sub Rat.mul Rat.inv in
/-- C6: the claim asserts that for every processed line only the first
matching construct of the selected category is rewritten.  It is not: the
substitution replaces every non-overlapping match in the line, so a line
with two hex literals has both transformed (each #ff0000 becomes #ff1111),
rather than only the first. -/
theorem C6_counterexample :
    transformLine seedMin1 seedMin2 [] "a: #ff0000 #ff0000" =
      .ok ("a: #ff1111 #ff1111", []) ∧
    "a: #ff1111 #ff1111" ≠ "a: #ff1111 #ff0000" := by
  constructor
  · have h : transformLine seedMin1 seedMin2 [] "a: #ff0000 #ff0000" =
        .ok (String.join ["a: ", get_rgb_hex (t_rgb (toSRGB ⟨1, 0, 0⟩)), " ",
          get_rgb_hex (t_rgb (toSRGB ⟨1, 0, 0⟩)), ""], []) := by rfl
    rw [h, hexT_red]
    rfl
  · decide

unseal Rat.add Rat.sub Rat.mul Rat.inv in
/-- C6 (amended): lines are classified in the fixed priority order
variable-definition, luminance-rescale, mix, single adjustment function,
bare hex literal, and the selected category's substitution processes every
non-overlapping match on the line in one left-to-right pass (replacements
are not rescanned), not only the first one.  The conjuncts demonstrate the
priority order pairwise on lines matching two categories at once — a
variable definition whose body mentions a rescale call is handled as a
definition (whitespace stripped, stored, passthrough body); a line with a
rescale call and a hex literal rewrites only the rescale call; a mix call
is reassembled as a mix even though the inner calls also match the
function pattern; a function call whose argument is a hex literal is
re-fitted as a function (argument tone-curved, percentage from the
optimizer outcome 42) rather than as a bare hex; and a line with two hex
literals has both replaced. -/
theorem C6_amended (M1 : Min1) (M2 : Min2) (vars : VarMap) :
    transformLine M1 M2 vars "  @x: scale-hsla(0,1,0,1,0,1,0,1);" =
      .ok ("@x: scale-hsla(0,1,0,1,0,1,0,1);",
        pyInsert vars "@x" (.str "scale-hsla(0,1,0,1,0,1,0,1)")) ∧
    transformLine M1 M2 vars "c: scale-hsla(0,1,0,1,0,1,0,1) #ff0000" =
      .ok ("c: scale-hsla(0,1,0,1,0,   1,   0,1) #ff0000", vars) ∧
    transformLine seedMin1 seedMin2 [("@red", .color ⟨1, 0, 0⟩)]
      "m: mix(lighten(@red, 10%), darken(@red, 20%), 50%)" =
      .ok ("m: mix(lighten(@red, 10%), darken(@red, 20%), 50%)",
        [("@red", .color ⟨1, 0, 0⟩)]) ∧
    transformLine (constMin1 42) M2 vars "f: lighten(#ff0000, 130%)" =
      .ok ("f: lighten(#ff1111, 42%)", vars) ∧
    transformLine seedMin1 seedMin2 [] "a: #ff0000 #ff0000" =
      .ok ("a: #ff1111 #ff1111", []) := by
  refine ⟨rfl, rfl, rfl, ?_, ?_⟩
  · have h : transformLine (constMin1 42) M2 vars "f: lighten(#ff0000, 130%)" =
        .ok (String.join ["f: ",
          "lighten" ++ "(" ++ get_rgb_hex (t_rgb (toSRGB ⟨1, 0, 0⟩)) ++ ", " ++ "42" ++ "%)",
          ""], vars) := by rfl
    rw [h, hexT_red]
    rfl
  · have h : transformLine seedMin1 seedMin2 [] "a: #ff0000 #ff0000" =
        .ok (String.join ["a: ", get_rgb_hex (t_rgb (toSRGB ⟨1, 0, 0⟩)), " ",
          get_rgb_hex (t_rgb (toSRGB ⟨1, 0, 0⟩)), ""], []) := by rfl
    rw [h, hexT_red]
    rfl

/-! ### C5: serialization format of a re-fitted luminance rescale -/

/-- A concrete reference palette for the rescale optimizer (the four
variables it consults). -/
def palette4 : VarMap :=
  [("@forest", .color ⟨1/2, 3/5, 2/5⟩), ("@grass", .color ⟨7/10, 4/5, 3/5⟩),
   ("@farmland", .color ⟨9/10, 4/5, 7/10⟩), ("@residential", .color ⟨4/5, 4/5, 4/5⟩)]

unseal Rat.add Rat.sub Rat.mul Rat.inv in
/-- C5: the claim asserts that both fitted parameters are printed with
exactly two digits after the decimal point (.2f).  They are not: the code
uses the Python .2 format, which prints two significant digits and strips
trailing zeros, so the optimizer outcome (0.5, 0.9) is serialized as
scale-hsla(0,1,0,1,0.5,0.9,0,1) — one digit after the decimal point —
rather than with the two-decimal rendering 0.50 and 0.90. -/
theorem C5_counterexample :
    transform_scale_l (constMin2 (1/2, 9/10)) palette4 (1/5) (4/5) =
      .ok "scale-hsla(0,1,0,1,0.5,0.9,0,1)" ∧
    "scale-hsla(0,1,0,1,0.5,0.9,0,1)" ≠
      "scale-hsla(0,1,0,1," ++ twoDecFmt (1/2) ++ "," ++ twoDecFmt (9/10) ++ ",0,1)" := by
  exact ⟨rfl, by decide⟩

unseal Rat.add Rat.sub Rat.mul Rat.inv in
/-- C5 (amended): for every non-identity parameter pair and every optimizer
outcome (c0, c1), the result is serialized as
scale-hsla(0,1,0,1,fmt(c0),fmt(c1),0,1) where fmt is the Python .2 general
format: two significant digits with trailing zeros stripped (scientific
notation for magnitudes outside [0.0001, 10) ), not two digits after the
decimal point. -/
theorem C5_amended (c0 c1 l0 l1 : ℚ) (h : ¬(l0 = 0 ∧ l1 = 1)) :
    transform_scale_l (constMin2 (c0, c1)) palette4 l0 l1 =
      .ok ("scale-hsla(0,1,0,1," ++ pyFormatDot2 c0 ++ "," ++ pyFormatDot2 c1 ++ ",0,1)") := by
  unfold transform_scale_l
  rw [if_neg h]
  rfl

/-- C5 witness: the amended theorem applied at the fitted outcome
(0.35, 0.95) for the call parameters (0.3, 1). -/
theorem C5_witness :
    transform_scale_l (constMin2 (7/20, 19/20)) palette4 (3/10) 1 =
      .ok ("scale-hsla(0,1,0,1," ++ pyFormatDot2 (7/20) ++ "," ++ pyFormatDot2 (19/20) ++ ",0,1)") :=
  C5_amended (7/20) (19/20) (3/10) 1 (by norm_num)

/-! ### C7: variable resolution order -/

lemma resolveVar_notfound {vars : VarMap} {name : String}
    (h : lookupVar vars name = none) (fuel : ℕ) :
    resolveVar vars (fuel + 1) (.str name) = .error (.keyError name) := by
  unfold resolveVar resolveLoop
  rw [h]

lemma lookup_insert (n : String) (v : Value) :
    ∀ vars : VarMap, lookupVar (pyInsert vars n v) n = some v := by
  intro vars
  induction vars with
  | nil => simp [pyInsert, lookupVar]
  | cons head tl ih =>
    by_cases hk : head.1 = n
    · simp [pyInsert, lookupVar, List.any_cons, hk]
    · by_cases ha : tl.any (fun p => p.1 = n) = true
      · have htl : lookupVar (tl.map (fun p => if p.1 = n then (n, v) else p)) n = some v := by
          have := ih
          unfold pyInsert at this
          rwa [if_pos (by simpa using ha)] at this
        simp only [pyInsert, List.any_cons, hk, decide_eq_true_eq]
        rw [if_pos]
        · simp only [List.map_cons, if_neg hk]
          unfold lookupVar at htl ⊢
          rw [List.find?_cons_of_neg _ (by simpa using hk)]
          exact htl
        · simp [hk, ha]
      · have htl : lookupVar (tl ++ [(n, v)]) n = some v := by
          have := ih
          unfold pyInsert at this
          rwa [if_neg (by simpa using ha)] at this
        simp only [pyInsert, List.any_cons, hk, decide_eq_true_eq]
        rw [if_neg]
        · show lookupVar (head :: (tl ++ [(n, v)])) n = some v
          unfold lookupVar at htl ⊢
          rw [List.find?_cons_of_neg _ (by simpa using hk)]
          exact htl
        · simp [hk, ha]

/-- C7: an adjustment-call argument naming a variable absent from the
mapping at processing time makes the re-fitting fail with a KeyError (no
pre-validation of definition order), for every optimizer and every call;
and once a variable is stored, looking it up returns exactly the stored
value, and the resolution loop yields the stored color. -/
theorem C7_variable_resolution :
    (∀ (M : Min1) (vars : VarMap) (fn : String) (v : ℤ) (name : String),
      lookupVar vars name = none →
      transform_fun M vars fn v (.str name) = .error (.keyError name)) ∧
    (∀ (vars : VarMap) (name : String) (value : Value),
      lookupVar (pyInsert vars name value) name = some value) ∧
    (∀ (vars : VarMap) (name : String) (q : QColor) (fuel : ℕ),
      lookupVar vars name = some (.color q) →
      resolveVar vars (fuel + 1) (.str name) = .ok (.color q)) := by
  refine ⟨?_, ?_, ?_⟩
  · intro M vars fn v name h
    unfold transform_fun
    rw [resolveVar_notfound h]
    rfl
  · intro vars name value
    exact lookup_insert name value vars
  · intro vars name q fuel h
    unfold resolveVar resolveLoop
    rw [h]

/-- C7 witness: the theorem applied at a missing name, at an insertion into
the empty mapping, and at a stored color. -/
theorem C7_witness :
    transform_fun seedMin1 [] "lighten" 20 (.str "@missing") =
      .error (.keyError "@missing") ∧
    lookupVar (pyInsert [] "@c" (.str "x")) "@c" = some (.str "x") ∧
    resolveVar [("@c", .color ⟨1, 1, 1⟩)] 2 (.str "@c") = .ok (.color ⟨1, 1, 1⟩) :=
  ⟨C7_variable_resolution.1 seedMin1 [] "lighten" 20 "@missing" rfl,
   C7_variable_resolution.2.1 [] "@c" (.str "x"),
   C7_variable_resolution.2.2 [("@c", .color ⟨1, 1, 1⟩)] "@c" ⟨1, 1, 1⟩ 1 rfl⟩

/-! ### C9: integer conversion of percentage strings -/

lemma digit_not_ws {c : Char} (h : isDig c = true) : pyWs c = false := by
  by_contra hw
  rw [Bool.not_eq_false] at hw
  simp only [pyWs, Bool.or_eq_true, decide_eq_true_eq] at hw
  rcases hw with ((((h1 | h1) | h1) | h1) | h1) | h1 <;> subst h1 <;> simp [isDig] at h

lemma digit_ne {c : Char} (h : isDig c = true) : c ≠ '+' ∧ c ≠ '-' ∧ c ≠ '_' := by
  refine ⟨?_, ?_, ?_⟩ <;> rintro rfl <;> simp [isDig] at h

lemma intDigitsRest_digits (cs : List Char) (h : ∀ c ∈ cs, isDig c = true) :
    intDigitsOK.intDigitsRest cs = true := by
  induction cs with
  | nil => rfl
  | cons d ds ih =>
    have hd' := h d (List.mem_cons_self d ds)
    have hne : d ≠ '_' := (digit_ne hd').2.2
    have ih' := ih (fun c hc => h c (List.mem_cons_of_mem d hc))
    unfold intDigitsOK.intDigitsRest
    split <;> first | rfl | simp_all [isDig]

lemma intDigitsOK_digits (l : List Char) (hne : l ≠ []) (h : ∀ c ∈ l, isDig c = true) :
    intDigitsOK l = true := by
  cases l with
  | nil => exact absurd rfl hne
  | cons c cs =>
    unfold intDigitsOK
    show (isDig c && intDigitsOK.intDigitsRest cs) = true
    rw [h c (List.mem_cons_self c cs),
      intDigitsRest_digits cs (fun d hd => h d (List.mem_cons_of_mem c hd))]
    rfl

lemma strip_digits (l : List Char) (h : ∀ c ∈ l, isDig c = true) :
    ((l.dropWhile pyWs).reverse.dropWhile pyWs).reverse = l := by
  cases l with
  | nil => rfl
  | cons c cs =>
    have h1 : (c :: cs).dropWhile pyWs = c :: cs := by
      rw [List.dropWhile_cons, digit_not_ws (h c (List.mem_cons_self c cs))]
      simp
    rw [h1]
    obtain ⟨d, ds, hrev⟩ : ∃ d ds, (c :: cs).reverse = d :: ds := by
      cases hrv : (c :: cs).reverse with
      | nil => exact absurd (List.reverse_eq_nil_iff.mp hrv) (by simp)
      | cons d ds => exact ⟨d, ds, rfl⟩
    have hdmem : d ∈ c :: cs := by
      rw [← List.mem_reverse, hrev]
      exact List.mem_cons_self d ds
    rw [hrev, List.dropWhile_cons, digit_not_ws (h d hdmem)]
    simp only [Bool.false_eq_true, if_false]
    rw [← hrev, List.reverse_reverse]

lemma pySign_digit {c : Char} (cs : List Char) (h : isDig c = true) :
    pySign (c :: cs) = (1, c :: cs) := by
  have h1 : c ≠ '+' := (digit_ne h).1
  have h2 : c ≠ '-' := (digit_ne h).2.1
  unfold pySign
  split <;> first | rfl | simp_all

lemma pyInt_digits (l : List Char) (hne : l ≠ []) (hd : ∀ c ∈ l, isDig c = true) :
    pyInt (String.mk l) = .ok (digitsVal l : ℤ) := by
  obtain ⟨c, cs, rfl⟩ : ∃ c cs, l = c :: cs := by
    cases l with
    | nil => exact absurd rfl hne
    | cons c cs => exact ⟨c, cs, rfl⟩
  have hc := hd c (List.mem_cons_self c cs)
  have hfilter : (c :: cs).filter (fun x => x ≠ '_') = c :: cs :=
    List.filter_eq_self.mpr (fun a ha => by
      simpa using (digit_ne (hd a ha)).2.2)
  show pyIntCore (String.mk (c :: cs))
      ((((c :: cs).dropWhile pyWs).reverse.dropWhile pyWs).reverse) = _
  rw [strip_digits (c :: cs) hd]
  unfold pyIntCore
  rw [pySign_digit cs hc]
  rw [if_pos (intDigitsOK_digits (c :: cs) (by simp) hd)]
  show Except.ok (1 * (digitsVal ((c :: cs).filter (fun x => x ≠ '_')) : ℤ)) = _
  rw [hfilter, one_mul]

/-- C9: every adjustment-call percentage string is converted with Python
int() before evaluation and serialization: a nonempty all-digit string
converts to its decimal value, while the fractional string 12.5 raises a
ValueError; consequently a call carrying the percentage 12.5 makes both
serialization (in the single and in the chained branch, for every
optimizer, mapping and argument) and numeric evaluation fail with the
conversion error rather than degrade to passthrough. -/
theorem C9_percent_int_conversion :
    (∀ l : List Char, l ≠ [] → (∀ c ∈ l, isDig c = true) →
      pyInt (String.mk l) = .ok (digitsVal l : ℤ)) ∧
    pyInt "12.5" = .error (.valueError "invalid literal for int() with base 10: 12.5") ∧
    (∀ (M1 : Min1) (M2 : Min2) (vars : VarMap) (s : String),
      print_transform M1 M2 vars (.fn "lighten" (.str s) "12.5") =
        .error (.valueError "invalid literal for int() with base 10: 12.5")) ∧
    (∀ (M1 : Min1) (M2 : Min2) (vars : VarMap) (s : String),
      print_transform M1 M2 vars (.fn "saturate" (.fn "darken" (.str s) "12.5") "5") =
        .error (.valueError "invalid literal for int() with base 10: 12.5")) ∧
    Function.eval [("@c", .color ⟨1, 1, 1⟩)] "lighten" (.str "@c") "12.5" =
      .error (.valueError "invalid literal for int() with base 10: 12.5") := by
  refine ⟨pyInt_digits, rfl, fun M1 M2 vars s => rfl, fun M1 M2 vars s => rfl, rfl⟩

/-- C9 witness: the conversion theorem applied to the digit string 42. -/
theorem C9_witness : pyInt (String.mk ['4', '2']) = .ok (42 : ℤ) := by
  have h := C9_percent_int_conversion.1 ['4', '2'] (by decide) (by decide)
  simpa using h

/-! ### C10: the hex-literal pattern and decoder lengths -/

lemma runLen_all (p : Char → Bool) :
    ∀ l : List Char, (∀ c ∈ l, p c = true) → runLen p l = l.length := by
  intro l h
  induction l with
  | nil => rfl
  | cons c cs ih =>
    unfold runLen
    rw [h c (List.mem_cons_self c cs), if_pos rfl,
      ih (fun d hd => h d (List.mem_cons_of_mem c hd))]
    rfl

lemma hexDig_word {c : Char} (h : isHexDig c = true) : wordChar c = true := by
  simp only [isHexDig, Bool.or_eq_true, Bool.and_eq_true, decide_eq_true_eq] at h
  rcases h with (h | h) | h
  · simp [wordChar, h]
  · have h2 : c ≤ 'z' := le_trans h.2 (by decide)
    simp [wordChar, h.1, h2]
  · have h2 : c ≤ 'Z' := le_trans h.2 (by decide)
    simp [wordChar, h.1, h2]

lemma hexDig_not_ws {c : Char} (h : isHexDig c = true) : pyWs c = false := by
  by_contra hw
  rw [Bool.not_eq_false] at hw
  simp only [pyWs, Bool.or_eq_true, decide_eq_true_eq] at hw
  rcases hw with ((((h1 | h1) | h1) | h1) | h1) | h1 <;> subst h1 <;>
    simp [isHexDig, isDig] at h

lemma pyStrip_no_ws (l : List Char) (h : ∀ c ∈ l, pyWs c = false) : pyStrip l = l := by
  cases l with
  | nil => rfl
  | cons c cs =>
    unfold pyStrip
    rw [List.dropWhile_cons, h c (List.mem_cons_self c cs)]
    simp only [Bool.false_eq_true, if_false]
    obtain ⟨d, ds, hrev⟩ : ∃ d ds, (c :: cs).reverse = d :: ds := by
      cases hrv : (c :: cs).reverse with
      | nil => exact absurd (List.reverse_eq_nil_iff.mp hrv) (by simp)
      | cons d ds => exact ⟨d, ds, rfl⟩
    have hdmem : d ∈ c :: cs := by
      rw [← List.mem_reverse, hrev]
      exact List.mem_cons_self d ds
    rw [hrev, List.dropWhile_cons, h d hdmem]
    simp only [Bool.false_eq_true, if_false]
    rw [← hrev, List.reverse_reverse]

lemma drop_last_mem : ∀ (l : List Char), l ≠ [] → ∀ c : Char,
    ∃ d, (((c :: l).drop l.length).head? = some d) ∧ d ∈ l := by
  intro l
  induction l with
  | nil => intro h; exact absurd rfl h
  | cons a tl ih =>
    intro _ c
    by_cases htl : tl = []
    · subst htl
      exact ⟨a, by simp, by simp⟩
    · obtain ⟨d, hd1, hd2⟩ := ih htl a
      exact ⟨d, hd1, List.mem_cons_of_mem a hd2⟩

lemma matchToks_cls (s : List Char) (p : Char → Bool) (rest : List RTok) (pos : ℕ)
    (pend : List (ℕ × ℕ)) (caps : Caps) (k : ℕ) (hk : runLen p (s.drop pos) = k + 1) :
    matchToks s (.cls p true :: rest) pos pend caps =
      (List.range (k + 1)).findSome? fun i => matchToks s rest (pos + (k + 1 - i)) pend caps := by
  show (let maxk := runLen p (s.drop pos);
      let mink := if true = true then 1 else 0;
      if maxk < mink then none
      else (List.range (maxk + 1 - mink)).findSome? fun i =>
        matchToks s rest (pos + (maxk - i)) pend caps) =
    (List.range (k + 1)).findSome? fun i => matchToks s rest (pos + (k + 1 - i)) pend caps
  rw [hk]
  rfl

/-- The hex-color pattern matches a hash sign followed by any positive
number of hex digits (word-boundary terminated), whatever that number is. -/
lemma hex_match_all (l : List Char) (hne : l ≠ []) (hhex : ∀ c ∈ l, isHexDig c = true) :
    reMatch HEX_COLOR ('#' :: l) = some ⟨0, l.length + 1, []⟩ := by
  obtain ⟨m, hm⟩ : ∃ m, l.length = m + 1 := by
    cases l with
    | nil => exact absurd rfl hne
    | cons a tl => exact ⟨tl.length, rfl⟩
  have hrun : runLen isHexDig (('#' :: l).drop 1) = m + 1 := by
    rw [show ('#' :: l).drop 1 = l from rfl, runLen_all isHexDig l hhex, hm]
  have hbefore : wordAt ('#' :: l) (m + 1) = true := by
    obtain ⟨d, hd1, hd2⟩ := drop_last_mem l hne '#'
    rw [hm] at hd1
    unfold wordAt
    rw [hd1]
    exact hexDig_word (hhex d hd2)
  have hafter : wordAt ('#' :: l) (m + 2) = false := by
    unfold wordAt
    rw [show ('#' :: l).drop (m + 2) = l.drop (m + 1) from rfl, ← hm, List.drop_length]
    rfl
  have hfirst : matchToks ('#' :: l) [.wb] (m + 2) [] [] = some (m + 2, []) := by
    show (if (if m + 2 = 0 then false else wordAt ('#' :: l) (m + 1)) ≠ wordAt ('#' :: l) (m + 2)
        then matchToks ('#' :: l) [] (m + 2) [] [] else none) = some (m + 2, [])
    rw [if_neg (by omega : ¬(m + 2 = 0)), hbefore, hafter]
    rfl
  unfold reMatch
  rw [show matchToks ('#' :: l) HEX_COLOR 0 [] [] =
      matchToks ('#' :: l) [.cls isHexDig true, .wb] 1 [] [] from rfl]
  rw [matchToks_cls ('#' :: l) isHexDig [.wb] 1 [] [] m hrun]
  rw [List.range_succ_eq_map, List.findSome?_cons]
  rw [show 1 + (m + 1 - 0) = m + 2 by omega, hfirst]
  rw [hm]
  rfl

lemma shape6 {α : Type} (l : List α) (h : l.length = 6) :
    ∃ a b c d e f, l = [a, b, c, d, e, f] := by
  rcases l with _ | ⟨a, l⟩
  · simp at h
  rcases l with _ | ⟨b, l⟩
  · simp at h
  rcases l with _ | ⟨c, l⟩
  · simp at h
  rcases l with _ | ⟨d, l⟩
  · simp at h
  rcases l with _ | ⟨e, l⟩
  · simp at h
  rcases l with _ | ⟨f, l⟩
  · simp at h
  rcases l with _ | ⟨g, l⟩
  · exact ⟨a, b, c, d, e, f, rfl⟩
  · simp at h

lemma new_from_rgb_hex_six (l : List Char) (h6 : l.length = 6)
    (hhex : ∀ c ∈ l, isHexDig c = true) :
    new_from_rgb_hex (String.mk ('#' :: l)) =
      .ok ⟨hexPairVal (l.get ⟨0, by omega⟩) (l.get ⟨1, by omega⟩),
        hexPairVal (l.get ⟨2, by omega⟩) (l.get ⟨3, by omega⟩),
        hexPairVal (l.get ⟨4, by omega⟩) (l.get ⟨5, by omega⟩)⟩ := by
  obtain ⟨a, b, c, d, e, f, rfl⟩ := shape6 l h6
  have hstrip : pyStrip ('#' :: [a, b, c, d, e, f]) = '#' :: [a, b, c, d, e, f] :=
    pyStrip_no_ws _ (by
      intro x hx
      rcases List.mem_cons.mp hx with h1 | h2
      · subst h1; rfl
      · exact hexDig_not_ws (hhex x h2))
  unfold new_from_rgb_hex
  rw [show (String.mk ('#' :: [a, b, c, d, e, f])).data = '#' :: [a, b, c, d, e, f] from rfl]
  rw [hstrip]
  rw [if_pos ⟨rfl, List.all_eq_true.mpr (fun x hx => hhex x hx)⟩]
  rfl

lemma new_from_rgb_hex_bad (l : List Char) (h6 : l.length ≠ 6)
    (hhex : ∀ c ∈ l, isHexDig c = true) :
    new_from_rgb_hex (String.mk ('#' :: l)) =
      .error (.valueError ("input is not in hex6 format: " ++ String.mk ('#' :: l))) := by
  have hstrip : pyStrip ('#' :: l) = '#' :: l :=
    pyStrip_no_ws _ (by
      intro x hx
      rcases List.mem_cons.mp hx with h1 | h2
      · subst h1; rfl
      · exact hexDig_not_ws (hhex x h2))
  unfold new_from_rgb_hex
  rw [show (String.mk ('#' :: l)).data = '#' :: l from rfl]
  rw [hstrip]
  rw [if_neg (fun hcontra => h6 hcontra.1)]

/-- C10: the hex-literal pattern accepts a hash sign followed by any
positive number of hex digits (word-boundary terminated), not only 3 or 6;
only a 3-digit token is expanded before decoding — every other length is
handed to the decoder unexpanded — and decoding succeeds exactly when the
digit count is 3 or 6. -/
theorem C10_hex_lengths :
    (∀ l : List Char, l ≠ [] → (∀ c ∈ l, isHexDig c = true) →
      reMatch HEX_COLOR ('#' :: l) = some ⟨0, l.length + 1, []⟩) ∧
    (∀ l : List Char, (∀ c ∈ l, isHexDig c = true) → l.length ≠ 3 →
      parse_hex_color (String.mk ('#' :: l)) = new_from_rgb_hex (String.mk ('#' :: l))) ∧
    (∀ l : List Char, l ≠ [] → (∀ c ∈ l, isHexDig c = true) →
      ((parse_hex_color (String.mk ('#' :: l))).isOk = true ↔
        l.length = 3 ∨ l.length = 6)) := by
  have hnoexp : ∀ l : List Char, l.length ≠ 3 →
      parse_hex_color (String.mk ('#' :: l)) = new_from_rgb_hex (String.mk ('#' :: l)) := by
    intro l h3
    unfold parse_hex_color
    rw [if_neg (by
      show ¬((String.mk ('#' :: l)).length = 4)
      simp only [String.length, String.data, List.length_cons]
      omega)]
  refine ⟨hex_match_all, fun l hhex h3 => hnoexp l h3, ?_⟩
  intro l hne hhex
  by_cases h3 : l.length = 3
  · obtain ⟨a, b, c, rfl⟩ := List.length_eq_three.mp h3
    have hexp : parse_hex_color (String.mk ('#' :: [a, b, c])) =
        new_from_rgb_hex (String.mk ('#' :: [a, a, b, b, c, c])) := rfl
    rw [hexp, new_from_rgb_hex_six [a, a, b, b, c, c] rfl (by
      intro x hx
      have hor : x = a ∨ x = b ∨ x = c := by
        simp at hx
        tauto
      rcases hor with rfl | rfl | rfl <;> exact hhex _ (by simp))]
    simp
    rfl
  · rw [hnoexp l h3]
    by_cases h6 : l.length = 6
    · rw [new_from_rgb_hex_six l h6 hhex]
      simp [h6]
      rfl
    · rw [new_from_rgb_hex_bad l h6 hhex]
      simp [h3, h6]
      rfl

/-- C10 witness: the theorem applied to the 4-digit token #abcd — the
pattern matches it, it is passed to the decoder unexpanded, and decoding
fails. -/
theorem C10_witness :
    reMatch HEX_COLOR ('#' :: "abcd".data) = some ⟨0, 5, []⟩ ∧
    parse_hex_color (String.mk ('#' :: "abcd".data)) =
      new_from_rgb_hex (String.mk ('#' :: "abcd".data)) ∧
    (parse_hex_color (String.mk ('#' :: "abcd".data))).isOk = false := by
  refine ⟨?_, ?_, ?_⟩
  · have h := C10_hex_lengths.1 "abcd".data (by decide) (by decide)
    exact h
  · exact C10_hex_lengths.2.1 "abcd".data (by decide) (by decide)
  · have h := C10_hex_lengths.2.2 "abcd".data (by decide) (by decide)
    cases hok : (parse_hex_color (String.mk ('#' :: "abcd".data))).isOk
    · rfl
    · exact absurd (h.mp hok) (by decide)

end TransformColors
